import Mathlib

/-!
Shallow embedding of the validation hooks and orchestration stub of the
`web-fullstack-blueprint` repository (files `src/ai/orchestrator.py`,
`src/ai/hooks/prd_validator.py`, `src/ai/hooks/user_prompt_submit.py`,
`src/ai/hooks/web_performance_guard.py`), together with theorems settling
the specification claims about them.

Conventions of the embedding:
* JSON documents are modelled by the inductive type `JVal`; a Python dict is
  a key-ordered association list `List (String × JVal)`.
* Python runtime `TypeError`s (applying `in`, `len` or iteration to a value
  that does not support it) are modelled with `Except Unit`.
* Numbers are exact rationals `ℚ`. Where the source performs Python float
  arithmetic whose rounding is observable — the bundle-size percentage
  `(size_kb / budget) * 100` — the embedding models IEEE-754 binary64
  round-to-nearest-ties-to-even exactly on `ℚ` (`roundDouble`); comparisons
  of doubles are exact comparisons of their rational values, and every value
  these computations produce lies in the binary64 normal range.
* Timestamps and the random `request_id` are presentation plumbing (the spec
  treats them as such) and are not part of the model, as are the purely
  cosmetic `message` strings of the performance guard's violation records.
-/

/-- A JSON-compatible value, the shape of every document the hooks consume. -/
inductive JVal where
  | null
  | bool (b : Bool)
  | num (q : ℚ)
  | str (s : String)
  | arr (elems : List JVal)
  | obj (fields : List (String × JVal))

/-- Boolean prefix test on character lists. -/
def charsPre : List Char → List Char → Bool
  | [], _ => true
  | _ :: _, [] => false
  | a :: as, b :: bs => a == b && charsPre as bs

/-- Boolean substring test: does `needle` occur contiguously in `hay`? -/
def charsSub (needle : List Char) : List Char → Bool
  | [] => needle.isEmpty
  | b :: bs => charsPre needle (b :: bs) || charsSub needle bs

/-- Key membership in a Python dict (`k in d` for a dict `d`). -/
def hasKey (d : List (String × JVal)) (k : String) : Bool :=
  d.any (fun p => p.1 == k)

/-- Dict lookup `d[k]`; callers only use it after a `hasKey` guard. -/
def lookupD (d : List (String × JVal)) (k : String) : JVal :=
  (List.lookup k d).getD JVal.null

/-- Dict lookup `d.get(k)`, `none` when the key is absent. -/
def lookupOpt (d : List (String × JVal)) (k : String) : Option JVal :=
  List.lookup k d

/-- Python truthiness (`bool(v)`): `None`, `False`, `0`, and empty
string/list/dict are falsy. -/
def pyFalsy : JVal → Bool
  | .null => true
  | .bool b => !b
  | .num q => q == 0
  | .str s => s.isEmpty
  | .arr xs => xs.isEmpty
  | .obj kvs => kvs.isEmpty

/-- Python `needle in v` for a string needle: key membership for dicts,
element membership for lists, substring for strings; `TypeError` otherwise. -/
def pyContains (needle : String) : JVal → Except Unit Bool
  | .obj kvs => .ok (kvs.any (fun p => p.1 == needle))
  | .arr xs => .ok (xs.any (fun x => match x with | .str t => t == needle | _ => false))
  | .str s => .ok (charsSub needle.toList s.toList)
  | _ => .error ()

/-- Python `len(v)`; `TypeError` on values without a length. -/
def pyLen : JVal → Except Unit ℕ
  | .obj kvs => .ok kvs.length
  | .arr xs => .ok xs.length
  | .str s => .ok s.length
  | _ => .error ()

/-- Python iteration over `v`: keys for dicts, elements for lists,
one-character strings for strings; `TypeError` otherwise. -/
def pyIter : JVal → Except Unit (List JVal)
  | .obj kvs => .ok (kvs.map (fun p => JVal.str p.1))
  | .arr xs => .ok xs
  | .str s => .ok (s.toList.map (fun c => JVal.str c.toString))
  | _ => .error ()

/-- Whether a JSON value is a mapping containing key `f` (the measure used to
state per-entry field-presence hypotheses about feature entries). -/
def objHas : JVal → String → Bool
  | .obj kvs, f => hasKey kvs f
  | _, _ => false

/-- Little-endian decimal digits of `n` as characters, with `fuel` bounding
the recursion depth (structural recursion so the kernel can evaluate it). -/
def decCharsAux : ℕ → ℕ → List Char
  | _, 0 => []
  | 0, _ + 1 => []
  | fuel + 1, n + 1 => Nat.digitChar ((n + 1) % 10) :: decCharsAux fuel ((n + 1) / 10)

/-- Python `str(n)` for a natural number: decimal digits, `"0"` for zero. -/
def pyStrNat (n : ℕ) : String :=
  if n = 0 then "0" else String.mk (decCharsAux n n).reverse

/-- Outcome of a validation pass: the `valid` flag and the issue list
(`timestamp` omitted as plumbing). -/
structure VResult where
  valid : Bool
  issues : List String
deriving DecidableEq

namespace PRDValidator

/-- Source `PRDValidator.required_sections` from `prd_validator.py`. -/
def required_sections : List String :=
  ["Executive Summary", "Problem Statement", "Target Users/Personas",
   "Core Features", "Success Metrics", "Constraints", "Timeline", "Non-Goals"]

/-- Source `required_feature_fields` inside `PRDValidator._validate_features`. -/
def required_feature_fields : List String :=
  ["name", "priority", "description", "acceptance_criteria"]

/-- Source `required_metric_categories` inside `PRDValidator._validate_metrics`. -/
def required_metric_categories : List String :=
  ["development", "quality", "performance", "security", "accessibility"]

/-- Source `required_constraint_categories` inside `PRDValidator._validate_constraints`. -/
def required_constraint_categories : List String :=
  ["technical", "performance", "security", "compliance"]

/-- The issue string `f"Feature {idx}: missing field '{field}'"`. -/
def fmtFeature (idx : ℕ) (field : String) : String :=
  "Feature " ++ pyStrNat idx ++ ": missing field " ++ "'" ++ field ++ "'"

/-- The inner loop of `_validate_features`: for each required field absent
from `feature`, append one issue to `acc`. -/
def featureFieldsLoop (idx : ℕ) (feature : JVal) :
    List String → List String → Except Unit (List String)
  | [], acc => .ok acc
  | f :: rest, acc => do
      let b ← pyContains f feature
      featureFieldsLoop idx feature rest (if b then acc else acc ++ [fmtFeature idx f])

/-- The `enumerate(features)` loop of `_validate_features`. -/
def featuresLoop : List JVal → ℕ → List String → Except Unit (List String)
  | [], _, acc => .ok acc
  | e :: rest, idx, acc => do
      let acc2 ← featureFieldsLoop idx e required_feature_fields acc
      featuresLoop rest (idx + 1) acc2

/-- Source `PRDValidator._validate_features`. -/
def validate_features (features : JVal) : Except Unit (List String) :=
  if pyFalsy features then .ok ["No features defined"]
  else do
    let n ← pyLen features
    if n == 0 then .ok ["No features defined"]
    else do
      let entries ← pyIter features
      featuresLoop entries 0 []

/-- The category-presence loop shared (textually duplicated in the source) by
`_validate_metrics` and `_validate_constraints`: `label` is the message text
before the category name. -/
def catLoop (label : String) (doc : JVal) :
    List String → List String → Except Unit (List String)
  | [], acc => .ok acc
  | c :: rest, acc => do
      let b ← pyContains c doc
      catLoop label doc rest (if b then acc else acc ++ [label ++ c])

/-- Source `PRDValidator._validate_metrics`. -/
def validate_metrics (metrics : JVal) : Except Unit (List String) :=
  catLoop "Missing metric category: " metrics required_metric_categories []

/-- Source `PRDValidator._validate_constraints`. -/
def validate_constraints (constraints : JVal) : Except Unit (List String) :=
  catLoop "Missing constraint category: " constraints required_constraint_categories []

/-- The section-presence loop of `PRDValidator.validate_prd`: one
`"Missing section: {s}"` issue per required section absent from the document,
in required-list order. -/
def sectionIssues (prd : List (String × JVal)) : List String :=
  (required_sections.filter (fun s => !(hasKey prd s))).map
    (fun s => "Missing section: " ++ s)

/-- Source `PRDValidator.validate_prd`: section-presence issues first, then — in
order, each guarded by shallow key presence — feature, metric and constraint
issues appended; a sub-check `TypeError` aborts the run (`Except.bind`). -/
def validate_prd (prd : List (String × JVal)) : Except Unit VResult :=
  let issues0 := sectionIssues prd
  Except.bind
    (if hasKey prd "features" then
      Except.map (fun fi => issues0 ++ fi) (validate_features (lookupD prd "features"))
    else .ok issues0) (fun issues1 =>
  Except.bind
    (if hasKey prd "success_metrics" then
      Except.map (fun mi => issues1 ++ mi) (validate_metrics (lookupD prd "success_metrics"))
    else .ok issues1) (fun issues2 =>
  Except.bind
    (if hasKey prd "constraints" then
      Except.map (fun ci => issues2 ++ ci) (validate_constraints (lookupD prd "constraints"))
    else .ok issues2) (fun issues3 =>
  .ok ⟨issues3.isEmpty, issues3⟩)))

end PRDValidator

/-- Outcome of the request/PRD validators of `user_prompt_submit.py` and
`orchestrator.py`: the `valid` flag and the single `error` message, if any
(`timestamp` and the constant `"..._structure": "valid"` marker omitted as
plumbing). -/
structure VRes where
  valid : Bool
  error : Option String
deriving DecidableEq

namespace UserPromptSubmit

/-- Source `required_fields` inside `UserPromptSubmitValidator.validate_request`. -/
def required_fields : List String := ["type", "action", "description"]

/-- Source `valid_types` inside `UserPromptSubmitValidator.validate_request`. -/
def valid_types : List String := ["feature", "bugfix", "refactor", "documentation"]

/-- Python `request["type"] in valid_types`: true only for one of the four
type strings. -/
def isValidType (v : JVal) : Bool :=
  match v with
  | .str t => valid_types.contains t
  | _ => false

/-- Source `UserPromptSubmitValidator.validate_request`: returns at the FIRST
missing required field; only when all three are present does it check the
request type. -/
def validate_request (request : List (String × JVal)) : VRes :=
  match required_fields.find? (fun f => !(hasKey request f)) with
  | some f => ⟨false, some ("Missing required field: " ++ f)⟩
  | none =>
    if isValidType (lookupD request "type") then ⟨true, none⟩
    else ⟨false, some "Invalid request type. Must be one of: feature, bugfix, refactor, documentation"⟩

end UserPromptSubmit

namespace Orchestrator

/-- Source `required` inside `Orchestrator._validate_request`. -/
def required : List String := ["type", "action", "description"]

/-- Source `Orchestrator._validate_request`: presence of the three fields only,
returning at the FIRST missing one; no request-type check. -/
def validate_request (request : List (String × JVal)) : VRes :=
  match required.find? (fun f => !(hasKey request f)) with
  | some f => ⟨false, some ("Missing field: " ++ f)⟩
  | none => ⟨true, none⟩

/-- Source `Orchestrator._validate_prd`: `prd` is `request.get("prd")`; a missing
key or any Python-falsy value (None, empty dict, ...) is rejected. -/
def validate_prd (prd : Option JVal) : VRes :=
  match prd with
  | none => ⟨false, some "PRD not provided"⟩
  | some v => if pyFalsy v then ⟨false, some "PRD not provided"⟩ else ⟨true, none⟩

/-- Source `Orchestrator._create_execution_plan`: a constant table; both arguments
are ignored by the source body. -/
def create_execution_plan (request : List (String × JVal)) (prdValidation : VRes) : JVal :=
  .obj [("features_to_build", .num 4),
        ("estimated_duration_hours", .num 160),
        ("parallel_tracks", .num 3),
        ("dependencies", .arr
          [.str "Database schema → Backend API → Frontend UI",
           .str "Auth service → Protected pages → Tests",
           .str "Blog feature → SEO optimization → Content"]),
        ("critical_path", .str "Database Design → Auth Service → Core APIs"),
        ("bottlenecks", .arr [])]

/-- One task record of `Orchestrator._assign_work`. -/
def task (name priority : String) (hours : ℚ) (deps : List String) : JVal :=
  .obj [("task", .str name), ("priority", .str priority),
        ("estimated_hours", .num hours), ("dependencies", .arr (deps.map JVal.str))]

/-- Source `Orchestrator._assign_work`: a constant per-agent task table; the `plan`
argument is ignored by the source body. -/
def assign_work (plan : JVal) : JVal :=
  .obj [("frontend_engineer", .arr
          [task "Homepage (P0)" "high" 16 [],
           task "Authentication UI (P0)" "high" 12 ["Backend: Auth API"],
           task "Dashboard (P1)" "medium" 20 ["Backend: Analytics API"]]),
        ("backend_engineer", .arr
          [task "Database Schema" "critical" 8 [],
           task "Authentication API (P0)" "high" 12 ["Database Schema"],
           task "Blog API (P2)" "medium" 16 ["Database Schema"]]),
        ("test_engineer", .arr
          [task "Unit tests" "high" 24 ["Implementation"],
           task "Integration tests" "high" 16 ["Implementation"],
           task "E2E tests" "medium" 20 ["Integration tests"]]),
        ("infrastructure_guardian", .arr
          [task "Terraform setup" "high" 20 [],
           task "CI/CD pipelines" "high" 16 ["Terraform setup"]]),
        ("security_reviewer", .arr
          [task "Code audit" "high" 12 ["Implementation"],
           task "Dependency scanning" "high" 4 []])]

/-- Source `Orchestrator._create_test_plan`: a constant; `plan` is ignored. -/
def create_test_plan (plan : JVal) : JVal :=
  .obj [("unit_tests", .obj [("target_coverage", .num 80), ("estimated_tests", .num 150)]),
        ("integration_tests", .obj [("target_coverage", .num 70), ("estimated_tests", .num 40)]),
        ("e2e_tests", .obj [("critical_flows", .num 12), ("estimated_tests", .num 25)]),
        ("performance_tests", .obj [("lighthouse_target", .num 90), ("bundle_size_limit_kb", .num 250)]),
        ("accessibility_tests", .obj [("standard", .str "WCAG 2.1 AA"), ("automated_tests", .num 50)])]

/-- Source `Orchestrator._get_review_checklist`: a constant ten-item list. -/
def review_checklist : List String :=
  ["✓ Code review - All PRs reviewed and approved",
   "✓ Test coverage - Minimum 80% coverage met",
   "✓ Performance - Lighthouse > 90",
   "✓ Security - No vulnerabilities detected",
   "✓ Accessibility - WCAG 2.1 AA compliant",
   "✓ SEO - All meta tags and structured data present",
   "✓ Documentation - API and code documented",
   "✓ Breaking changes - None or properly documented",
   "✓ Database migrations - All migrations tested",
   "✓ Deployment plan - Ready for production"]

/-- Source `Orchestrator._create_deployment_strategy`: a constant; `plan` is ignored. -/
def create_deployment_strategy (plan : JVal) : JVal :=
  .obj [("strategy", .str "blue_green"),
        ("stages", .arr
          [.obj [("stage", .str "staging"),
                 ("health_checks", .arr [.str "API endpoints", .str "Database connectivity"]),
                 ("smoke_tests", .num 15),
                 ("validation_time_minutes", .num 30)],
           .obj [("stage", .str "production"),
                 ("gradual_rollout", .obj
                   [("percentage", .arr [.num 10, .num 50, .num 100]),
                    ("interval_minutes", .num 30)]),
                 ("rollback_plan", .str "Automatic on health check failure"),
                 ("monitoring", .arr
                   [.str "Error rates", .str "Performance metrics", .str "User impact"])]]),
        ("estimated_deployment_time_minutes", .num 60),
        ("downtime_required", .num 0)]

/-- One entry of the `execution_plan["phases"]` list. -/
structure PhaseRec where
  name : String
  status : String
  payload : JVal

/-- The phase payload carrying a validation result (the `"result"` key of the
two validate phases). -/
def vresToJVal (structKey : String) (r : VRes) : JVal :=
  if r.valid then .obj [("valid", .bool true), (structKey, .str "valid")]
  else .obj [("valid", .bool false), ("error", .str (r.error.getD ""))]

/-- The result of `Orchestrator.orchestrate`: the failure dict
`{"valid": False, "error": <validation>, "timestamp": ...}` carries no phase
list; the success dict carries the seven phases and the agent assignments
(`request_id`/`timestamp` omitted as plumbing). -/
inductive OrchResult where
  | failure (error : VRes)
  | success (phases : List PhaseRec) (agent_assignments : JVal)

/-- Source `Orchestrator.orchestrate`. -/
def orchestrate (request : List (String × JVal)) : OrchResult :=
  let rv := validate_request request
  if !rv.valid then .failure rv
  else
    let pv := validate_prd (lookupOpt request "prd")
    if !pv.valid then .failure pv
    else
      let plan := create_execution_plan request pv
      let assignments := assign_work plan
      .success
        [⟨"validate_request", "completed", vresToJVal "request_structure" rv⟩,
         ⟨"validate_prd", "completed", vresToJVal "prd_structure" pv⟩,
         ⟨"plan", "ready", plan⟩,
         ⟨"implement", "pending", assignments⟩,
         ⟨"test", "pending", create_test_plan plan⟩,
         ⟨"review", "pending", .arr (review_checklist.map JVal.str)⟩,
         ⟨"deploy", "pending", create_deployment_strategy plan⟩]
        assignments

/-- The `valid` flag of an orchestration result. -/
def resultValid : OrchResult → Bool
  | .failure _ => false
  | .success _ _ => true

/-- The phase entries reachable from an orchestration result (a failure dict
carries none). -/
def resultPhases : OrchResult → List PhaseRec
  | .failure _ => []
  | .success ps _ => ps

/-- The plan every passing request receives (the planner is a template:
`create_execution_plan` ignores its arguments). -/
def stdPlan : JVal := create_execution_plan [] ⟨true, none⟩

/-- The agent assignments every passing request receives. -/
def stdAssignments : JVal := assign_work stdPlan

/-- The phase list every passing request receives. -/
def stdPhases : List PhaseRec :=
  [⟨"validate_request", "completed", vresToJVal "request_structure" ⟨true, none⟩⟩,
   ⟨"validate_prd", "completed", vresToJVal "prd_structure" ⟨true, none⟩⟩,
   ⟨"plan", "ready", stdPlan⟩,
   ⟨"implement", "pending", stdAssignments⟩,
   ⟨"test", "pending", create_test_plan stdPlan⟩,
   ⟨"review", "pending", .arr (review_checklist.map JVal.str)⟩,
   ⟨"deploy", "pending", create_deployment_strategy stdPlan⟩]

end Orchestrator

namespace PerformanceGuard

/-- A structured violation record of the performance guard; `severity` is the
`"type"` key of the Python dict (the cosmetic `message` string is omitted as
plumbing). -/
structure Violation where
  severity : String
  metric : String
  value : ℚ
  budget : ℚ
  unit : Option String
  percentage : Option ℚ
deriving DecidableEq

/-- Source `self.budgets["lighthouse"]["min_score"]`. -/
def lighthouse_min_score : ℚ := 90

/-- Source `self.budgets["core_web_vitals"]`. -/
def cwv_budgets : List (String × ℚ) :=
  [("fcp", 1500), ("lcp", 2500), ("tti", 3500), ("cls", (1 : ℚ) / 10)]

/-- Source `self.budgets["bundle_sizes"]` (KB). -/
def bundle_budgets : List (String × ℚ) :=
  [("javascript", 300), ("css", 75), ("images", 1000), ("fonts", 100)]

/-- Source `self.budgets["network"]` (ms). -/
def network_budgets : List (String × ℚ) :=
  [("ttfb", 200), ("3g_load_time", 5000), ("4g_load_time", 3000)]

/-- Python `round` to the nearest integer, ties to even (banker's rounding). -/
def roundHalfEven (x : ℚ) : ℤ :=
  if x - ⌊x⌋ < 1 / 2 then ⌊x⌋
  else if x - ⌊x⌋ > 1 / 2 then ⌊x⌋ + 1
  else if 2 ∣ ⌊x⌋ then ⌊x⌋ else ⌊x⌋ + 1

/-- Python `round(x, 1)`: the exact one-decimal rounding, ties to even. -/
def pyRound1 (x : ℚ) : ℚ := (roundHalfEven (x * 10) : ℚ) / 10

/-- One IEEE-754 binary64 rounding step for a positive rational: scale into
the 53-bit mantissa window `[2^52, 2^53)` using the base-2 logarithm, round
the mantissa to the nearest integer with ties to even, and scale back. -/
def roundPos (q : ℚ) : ℚ :=
  (roundHalfEven (q / 2 ^ (Int.log 2 q - 52)) : ℚ) * 2 ^ (Int.log 2 q - 52)

/-- Round an exact rational to the nearest IEEE-754 binary64 double
(round-to-nearest, ties to even), modelled exactly on `ℚ` for the normal
range — which every value of the guard's arithmetic inhabits, so overflow
and subnormal handling are not modelled. -/
def roundDouble (q : ℚ) : ℚ :=
  if q = 0 then 0 else if 0 < q then roundPos q else -roundPos (-q)

/-- Python float division: the exact quotient rounded to the nearest double. -/
def fdiv (a b : ℚ) : ℚ := roundDouble (a / b)

/-- Python float multiplication: the exact product rounded to the nearest
double. -/
def fmul (a b : ℚ) : ℚ := roundDouble (a * b)

/-- Source `PerformanceGuard._check_lighthouse`: iterates the input scores in input
order; severity is always `critical`. -/
def check_lighthouse (scores : List (String × ℚ)) : List Violation :=
  scores.filterMap (fun p =>
    if p.2 < lighthouse_min_score then
      some ⟨"critical", "Lighthouse " ++ p.1, p.2, lighthouse_min_score, none, none⟩
    else none)

/-- The fixed `metric_names` table of `_check_core_web_vitals`. -/
def cwv_metric_names : List (String × String) :=
  [("fcp", "First Contentful Paint"), ("lcp", "Largest Contentful Paint"),
   ("tti", "Time to Interactive"), ("cls", "Cumulative Layout Shift")]

/-- Source `PerformanceGuard._check_core_web_vitals`: iterates the fixed metric-name
table; a key absent from the input is skipped; severity is always `critical`.
The budget lookup always succeeds for the four table keys. -/
def check_core_web_vitals (cwv : List (String × ℚ)) : List Violation :=
  cwv_metric_names.filterMap (fun p =>
    match List.lookup p.1 cwv with
    | none => none
    | some value =>
      let budget := (List.lookup p.1 cwv_budgets).getD 0
      if value > budget then
        some ⟨"critical", p.2, value, budget,
              some (if p.1 == "cls" then "" else "ms"), none⟩
      else none)

/-- Source `PerformanceGuard._check_bundle_sizes`: iterates the input sizes in input
order; keys outside the budget table are ignored; a size over budget is a
violation, `critical` when the computed percentage exceeds 110 and `warning`
otherwise. The percentage is the source's Python-float expression
`(size_kb / budget) * 100`: both operations round to the nearest binary64
double (`fdiv`, `fmul`), the `> budget` and `> 110` comparisons on doubles
are exact, and the attached value is `round(percentage, 1)` converted back
to a double. -/
def check_bundle_sizes (sizes : List (String × ℚ)) : List Violation :=
  sizes.flatMap (fun p =>
    match List.lookup p.1 bundle_budgets with
    | none => []
    | some budget =>
      let percentage := fmul (fdiv p.2 budget) 100
      if p.2 > budget then
        [⟨(if percentage > 110 then "critical" else "warning"),
          p.1.capitalize ++ " bundle", p.2, budget, some "KB",
          some (roundDouble (pyRound1 percentage))⟩]
      else [])

/-- Source `PerformanceGuard._check_network`: severity is always `warning`;
unrecognized keys are ignored. -/
def check_network (network : List (String × ℚ)) : List Violation :=
  network.flatMap (fun p =>
    match List.lookup p.1 network_budgets with
    | none => []
    | some budget =>
      if p.2 > budget then [⟨"warning", p.1, p.2, budget, some "ms", none⟩] else [])

/-- The metrics document consumed by `validate_performance`: each group is
present or absent, and (per the source's type hints) maps metric names to
numbers in input order. -/
structure Metrics where
  lighthouse : Option (List (String × ℚ))
  core_web_vitals : Option (List (String × ℚ))
  bundle_sizes : Option (List (String × ℚ))
  network : Option (List (String × ℚ))

/-- The result of `validate_performance` (`timestamp` omitted as plumbing). -/
structure PerfResult where
  valid : Bool
  violations : List Violation
  warnings : List Violation
deriving DecidableEq

/-- Source `PerformanceGuard.validate_performance`: the four group checks all extend
`violations`; the `warnings` list is initialized empty and never appended to. -/
def validate_performance (m : Metrics) : PerfResult :=
  let warnings : List Violation := []
  let v1 := match m.lighthouse with | some s => check_lighthouse s | none => []
  let v2 := match m.core_web_vitals with | some s => check_core_web_vitals s | none => []
  let v3 := match m.bundle_sizes with | some s => check_bundle_sizes s | none => []
  let v4 := match m.network with | some s => check_network s | none => []
  let violations := v1 ++ v2 ++ v3 ++ v4
  ⟨violations.isEmpty, violations, warnings⟩

/-- The result of `PerformanceGuard.process`: the approval dict carries no
violation or warning lists; the rejection dict carries both. -/
inductive ProcResult where
  | approved
  | rejected (violations warnings : List Violation)

/-- Source `PerformanceGuard.process`. -/
def process (m : Metrics) : ProcResult :=
  let validation := validate_performance m
  if validation.valid then .approved
  else .rejected validation.violations validation.warnings

/-- The warning list reachable from a `process` result. -/
def procWarnings : ProcResult → List Violation
  | .approved => []
  | .rejected _ ws => ws

end PerformanceGuard

/-! ## General helper lemmas -/

@[simp] lemma ok_bind {α β : Type} (a : α) (f : α → Except Unit β) :
    (Except.ok a >>= f) = f a := rfl

@[simp] lemma error_bind {α β : Type} (e : Unit) (f : α → Except Unit β) :
    ((Except.error e : Except Unit α) >>= f) = Except.error e := rfl

@[simp] lemma exbind_ok {α β : Type} (a : α) (f : α → Except Unit β) :
    Except.bind (Except.ok a) f = f a := rfl

@[simp] lemma exbind_error {α β : Type} (e : Unit) (f : α → Except Unit β) :
    Except.bind (Except.error e : Except Unit α) f = Except.error e := rfl

@[simp] lemma exmap_ok {α β : Type} (a : α) (f : α → β) :
    Except.map f (Except.ok a : Except Unit α) = Except.ok (f a) := rfl

@[simp] lemma exmap_error {α β : Type} (e : Unit) (f : α → β) :
    Except.map f (Except.error e : Except Unit α) = Except.error e := rfl

namespace PerformanceGuard

/-- Characterization of the binary logarithm used by `roundPos`. -/
lemma intLog2_eq (q : ℚ) (e : ℤ) (hq : 0 < q) (h1 : (2:ℚ) ^ e ≤ q)
    (h2 : q < (2:ℚ) ^ (e + 1)) : Int.log 2 q = e := by
  have hlow := Int.zpow_log_le_self (show (1:ℕ) < 2 by norm_num) hq
  have hhigh := Int.lt_zpow_succ_log_self (show (1:ℕ) < 2 by norm_num) q
  push_cast at hlow hhigh
  have h3 : Int.log 2 q < e + 1 :=
    (zpow_lt_zpow_iff_right₀ (by norm_num : (1:ℚ) < 2)).mp (lt_of_le_of_lt hlow h2)
  have h4 : e < Int.log 2 q + 1 :=
    (zpow_lt_zpow_iff_right₀ (by norm_num : (1:ℚ) < 2)).mp (lt_of_le_of_lt h1 hhigh)
  omega

lemma rhe_ge (x : ℚ) : ⌊x⌋ ≤ roundHalfEven x := by
  unfold roundHalfEven
  split_ifs <;> omega

lemma rhe_le (x : ℚ) : roundHalfEven x ≤ ⌊x⌋ + 1 := by
  unfold roundHalfEven
  split_ifs <;> omega

lemma rhe_mono {x y : ℚ} (h : x ≤ y) : roundHalfEven x ≤ roundHalfEven y := by
  rcases lt_or_eq_of_le (Int.floor_mono h) with hf | hf
  · calc roundHalfEven x ≤ ⌊x⌋ + 1 := rhe_le x
      _ ≤ ⌊y⌋ := by omega
      _ ≤ roundHalfEven y := rhe_ge y
  · unfold roundHalfEven
    rw [← hf]
    split_ifs <;> first | omega | linarith

/-- Evaluation of `roundHalfEven` below the tie point. -/
lemma rhe_eval_lt (x : ℚ) (f : ℤ) (hf1 : (f:ℚ) ≤ x) (hf2 : x < f + 1)
    (h : x - f < 1 / 2) : roundHalfEven x = f := by
  have hfl : ⌊x⌋ = f := Int.floor_eq_iff.mpr ⟨hf1, hf2⟩
  unfold roundHalfEven
  rw [hfl, if_pos h]

/-- Evaluation of `roundHalfEven` above the tie point. -/
lemma rhe_eval_gt (x : ℚ) (f : ℤ) (hf1 : (f:ℚ) ≤ x) (hf2 : x < f + 1)
    (h : x - f > 1 / 2) : roundHalfEven x = f + 1 := by
  have hfl : ⌊x⌋ = f := Int.floor_eq_iff.mpr ⟨hf1, hf2⟩
  unfold roundHalfEven
  rw [hfl, if_neg (by linarith), if_pos h]

/-- The scaled mantissa of a positive rational lies in the 53-bit window. -/
lemma mantissa_bounds (q : ℚ) (hq : 0 < q) :
    (2:ℚ) ^ (52:ℤ) ≤ q / 2 ^ (Int.log 2 q - 52) ∧
      q / 2 ^ (Int.log 2 q - 52) < (2:ℚ) ^ (53:ℤ) := by
  have hlow := Int.zpow_log_le_self (show (1:ℕ) < 2 by norm_num) hq
  have hhigh := Int.lt_zpow_succ_log_self (show (1:ℕ) < 2 by norm_num) q
  push_cast at hlow hhigh
  have hpos : (0:ℚ) < 2 ^ (Int.log 2 q - 52) := by positivity
  constructor
  · rw [le_div_iff₀ hpos, ← zpow_add₀ (by norm_num : (2:ℚ) ≠ 0)]
    rw [show (52:ℤ) + (Int.log 2 q - 52) = Int.log 2 q from by ring]
    exact hlow
  · rw [div_lt_iff₀ hpos, ← zpow_add₀ (by norm_num : (2:ℚ) ≠ 0)]
    rw [show (53:ℤ) + (Int.log 2 q - 52) = Int.log 2 q + 1 from by ring]
    exact hhigh

/-- Rounding to the nearest double is monotone on positive inputs. -/
lemma roundPos_mono {x y : ℚ} (hx : 0 < x) (hxy : x ≤ y) : roundPos x ≤ roundPos y := by
  have hy : 0 < y := lt_of_lt_of_le hx hxy
  have hL : Int.log 2 x ≤ Int.log 2 y := Int.log_mono_right hx hxy
  rcases eq_or_lt_of_le hL with hE | hLt
  · unfold roundPos
    rw [← hE]
    have hpos : (0:ℚ) < 2 ^ (Int.log 2 x - 52) := by positivity
    have hm : x / 2 ^ (Int.log 2 x - 52) ≤ y / 2 ^ (Int.log 2 x - 52) := by gcongr
    have hn := rhe_mono hm
    have hn' : ((roundHalfEven (x / 2 ^ (Int.log 2 x - 52)) : ℤ) : ℚ) ≤
        ((roundHalfEven (y / 2 ^ (Int.log 2 x - 52)) : ℤ) : ℚ) := by exact_mod_cast hn
    exact mul_le_mul_of_nonneg_right hn' (le_of_lt hpos)
  · have hxm := mantissa_bounds x hx
    have hym := mantissa_bounds y hy
    have hpx : (0:ℚ) < 2 ^ (Int.log 2 x - 52) := by positivity
    have hpy : (0:ℚ) < 2 ^ (Int.log 2 y - 52) := by positivity
    have hnx : roundHalfEven (x / 2 ^ (Int.log 2 x - 52)) ≤ 2 ^ 53 := by
      have h1 : ⌊x / 2 ^ (Int.log 2 x - 52)⌋ < 2 ^ 53 :=
        Int.floor_lt.mpr (by exact_mod_cast hxm.2)
      have h2 := rhe_le (x / 2 ^ (Int.log 2 x - 52))
      omega
    have hny : (2:ℤ) ^ 52 ≤ roundHalfEven (y / 2 ^ (Int.log 2 y - 52)) := by
      have h1 : (2:ℤ) ^ 52 ≤ ⌊y / 2 ^ (Int.log 2 y - 52)⌋ :=
        Int.le_floor.mpr (by exact_mod_cast hym.1)
      have h2 := rhe_ge (y / 2 ^ (Int.log 2 y - 52))
      omega
    unfold roundPos
    calc (roundHalfEven (x / 2 ^ (Int.log 2 x - 52)) : ℚ) * 2 ^ (Int.log 2 x - 52)
        ≤ (2:ℚ) ^ (53:ℤ) * 2 ^ (Int.log 2 x - 52) :=
          mul_le_mul_of_nonneg_right (by exact_mod_cast hnx) (le_of_lt hpx)
      _ = 2 ^ (Int.log 2 x + 1) := by
          rw [← zpow_add₀ (by norm_num : (2:ℚ) ≠ 0)]
          rw [show (53:ℤ) + (Int.log 2 x - 52) = Int.log 2 x + 1 from by ring]
      _ ≤ 2 ^ Int.log 2 y := zpow_le_zpow_right₀ (by norm_num) (by omega)
      _ = (2:ℚ) ^ (52:ℤ) * 2 ^ (Int.log 2 y - 52) := by
          rw [← zpow_add₀ (by norm_num : (2:ℚ) ≠ 0)]
          rw [show (52:ℤ) + (Int.log 2 y - 52) = Int.log 2 y from by ring]
      _ ≤ (roundHalfEven (y / 2 ^ (Int.log 2 y - 52)) : ℚ) * 2 ^ (Int.log 2 y - 52) :=
          mul_le_mul_of_nonneg_right (by exact_mod_cast hny) (le_of_lt hpy)

lemma roundDouble_pos_eq (q : ℚ) (hq : 0 < q) : roundDouble q = roundPos q := by
  unfold roundDouble
  rw [if_neg hq.ne', if_pos hq]

lemma roundDouble_mono_pos {x y : ℚ} (hx : 0 < x) (h : x ≤ y) :
    roundDouble x ≤ roundDouble y := by
  rw [roundDouble_pos_eq x hx, roundDouble_pos_eq y (lt_of_lt_of_le hx h)]
  exact roundPos_mono hx h

/-- Closed-form evaluation of `roundPos` from an exponent bracket and a
mantissa rounding. -/
lemma roundPos_eval (q : ℚ) (L n : ℤ) (hq : 0 < q)
    (h1 : (2:ℚ) ^ L ≤ q) (h2 : q < (2:ℚ) ^ (L + 1))
    (h3 : roundHalfEven (q / 2 ^ (L - 52)) = n) :
    roundPos q = (n : ℚ) * 2 ^ (L - 52) := by
  unfold roundPos
  rw [intLog2_eq q L hq h1 h2, h3]

/-- The double nearest 11/10 is 4953959590107546·2⁻⁵², slightly above 1.1. -/
lemma roundDouble_ratio :
    roundDouble (11/10 : ℚ) = 4953959590107546/4503599627370496 := by
  rw [roundDouble_pos_eq _ (by norm_num)]
  have hx : (11/10 : ℚ) / 2 ^ ((0:ℤ) - 52) = 49539595901075456/10 := by norm_num
  have h3 : roundHalfEven ((11/10 : ℚ) / 2 ^ ((0:ℤ) - 52)) = 4953959590107546 := by
    rw [hx]
    exact rhe_eval_gt _ 4953959590107545 (by norm_num) (by norm_num) (by norm_num)
  rw [roundPos_eval (11/10) 0 4953959590107546 (by norm_num) (by norm_num) (by norm_num) h3]
  norm_num

/-- Multiplying that double by 100 and rounding gives
7740561859543041·2⁻⁴⁶ = 110 + 2⁻⁴⁶, strictly above 110 (the float CPython
prints as 110.00000000000001). -/
lemma roundDouble_d0_mul_100 :
    roundDouble ((4953959590107546 : ℚ)/4503599627370496 * 100) =
      7740561859543041/70368744177664 := by
  rw [roundDouble_pos_eq _ (by norm_num)]
  have hx : ((4953959590107546 : ℚ)/4503599627370496 * 100) / 2 ^ ((6:ℤ) - 52) =
      61924494876344325/8 := by norm_num
  have h3 : roundHalfEven (((4953959590107546 : ℚ)/4503599627370496 * 100) /
      2 ^ ((6:ℤ) - 52)) = 7740561859543041 := by
    rw [hx]
    exact rhe_eval_gt _ 7740561859543040 (by norm_num) (by norm_num) (by norm_num)
  rw [roundPos_eval _ 6 7740561859543041 (by norm_num) (by norm_num) (by norm_num) h3]
  norm_num

/-- 110 is exactly representable as a double. -/
lemma roundDouble_110 : roundDouble (110:ℚ) = 110 := by
  rw [roundDouble_pos_eq _ (by norm_num)]
  have hx : (110:ℚ) / 2 ^ ((6:ℤ) - 52) = 7740561859543040 := by norm_num
  have h3 : roundHalfEven ((110:ℚ) / 2 ^ ((6:ℤ) - 52)) = 7740561859543040 := by
    rw [hx]
    exact rhe_eval_lt _ 7740561859543040 (by norm_num) (by norm_num) (by norm_num)
  rw [roundPos_eval _ 6 7740561859543040 (by norm_num) (by norm_num) (by norm_num) h3]
  norm_num

end PerformanceGuard

/-- Two strings differing at some character position are distinct. -/
lemma strNeOfNth (a b : String) (n : ℕ) (ca cb : Char)
    (ha : a.data[n]? = some ca) (hb : b.data[n]? = some cb) (hne : ca ≠ cb) : a ≠ b := by
  intro e
  rw [e] at ha
  rw [ha] at hb
  exact hne (Option.some.inj hb)

/-- Every budget in the bundle-size budget table is positive. -/
lemma bundle_budget_pos {t : String} {b : ℚ}
    (h : List.lookup t PerformanceGuard.bundle_budgets = some b) : 0 < b := by
  simp only [PerformanceGuard.bundle_budgets, List.lookup] at h
  repeat' split at h
  all_goals simp_all
  all_goals norm_num [← h]

/-- The single violation record `_check_bundle_sizes` emits for one
over-budget entry, with the severity condition and percentage left symbolic. -/
lemma check_single_eval (t : String) (b q : ℚ)
    (hb : List.lookup t PerformanceGuard.bundle_budgets = some b) (hqb : q > b) :
    PerformanceGuard.check_bundle_sizes [(t, q)] =
      [⟨(if PerformanceGuard.fmul (PerformanceGuard.fdiv q b) 100 > 110 then "critical"
         else "warning"),
        t.capitalize ++ " bundle", q, b, some "KB",
        some (PerformanceGuard.roundDouble (PerformanceGuard.pyRound1
          (PerformanceGuard.fmul (PerformanceGuard.fdiv q b) 100)))⟩] := by
  simp only [PerformanceGuard.check_bundle_sizes, List.flatMap_cons, List.flatMap_nil,
    List.append_nil, hb]
  rw [if_pos hqb]

/-- Evaluation of `_check_bundle_sizes` on the boundary example
`{"javascript": 330}`: the double-precision percentage is 110 + 2⁻⁴⁶,
strictly above 110, so the severity is `critical`, and rounding it to one
decimal gives back exactly 110.0. -/
lemma bundleJs330_eval : PerformanceGuard.check_bundle_sizes [("javascript", 330)] =
    [⟨"critical", "Javascript bundle", 330, 300, some "KB", some 110⟩] := by
  have h1 : PerformanceGuard.fdiv (330:ℚ) 300 = 4953959590107546/4503599627370496 := by
    unfold PerformanceGuard.fdiv
    rw [show (330:ℚ)/300 = 11/10 from by norm_num]
    exact PerformanceGuard.roundDouble_ratio
  have h2 : PerformanceGuard.fmul ((4953959590107546:ℚ)/4503599627370496) 100 =
      7740561859543041/70368744177664 :=
    PerformanceGuard.roundDouble_d0_mul_100
  have h3 : PerformanceGuard.pyRound1 ((7740561859543041:ℚ)/70368744177664) = 110 := by
    unfold PerformanceGuard.pyRound1
    rw [PerformanceGuard.rhe_eval_lt ((7740561859543041:ℚ)/70368744177664 * 10) 1100
      (by norm_num) (by norm_num) (by norm_num)]
    norm_num
  rw [check_single_eval "javascript" 300 330 rfl (by norm_num), h1, h2,
    if_pos (by norm_num : (7740561859543041:ℚ)/70368744177664 > 110), h3,
    PerformanceGuard.roundDouble_110,
    show ("javascript" : String).capitalize = "Javascript" from by decide]
  rfl

/-! ## Decimal-string helper lemmas -/

lemma stringDataInj {a b : String} (h : a.data = b.data) : a = b := congrArg String.mk h

lemma decCharsAux_eq (fuel : ℕ) : ∀ n : ℕ, n ≤ fuel →
    decCharsAux fuel n = (Nat.digits 10 n).map Nat.digitChar := by
  induction fuel with
  | zero =>
    intro n hn
    interval_cases n
    simp [decCharsAux]
  | succ fuel ih =>
    intro n hn
    cases n with
    | zero => simp [decCharsAux]
    | succ m =>
      have hd : Nat.digits 10 (m + 1) = (m + 1) % 10 :: Nat.digits 10 ((m + 1) / 10) :=
        Nat.digits_def' (by norm_num) (Nat.succ_pos m)
      have hle : (m + 1) / 10 ≤ fuel :=
        Nat.lt_succ_iff.mp (lt_of_lt_of_le (Nat.div_lt_self (Nat.succ_pos m) (by norm_num)) hn)
      rw [show decCharsAux (fuel + 1) (m + 1) =
            Nat.digitChar ((m + 1) % 10) :: decCharsAux fuel ((m + 1) / 10) from rfl,
          ih _ hle, hd, List.map_cons]

lemma digitChar_lt_inj : ∀ a : ℕ, a < 10 → ∀ b : ℕ, b < 10 →
    Nat.digitChar a = Nat.digitChar b → a = b := by decide

lemma digitChar_isDigit : ∀ a : ℕ, a < 10 → (Nat.digitChar a).isDigit = true := by decide

lemma mapDigitChar_inj : ∀ l₁ l₂ : List ℕ, (∀ d ∈ l₁, d < 10) → (∀ d ∈ l₂, d < 10) →
    l₁.map Nat.digitChar = l₂.map Nat.digitChar → l₁ = l₂ := by
  intro l₁
  induction l₁ with
  | nil =>
    intro l₂ _ _ h
    cases l₂ with
    | nil => rfl
    | cons b bs => simp at h
  | cons a as ih =>
    intro l₂ h1 h2 h
    cases l₂ with
    | nil => simp at h
    | cons b bs =>
      simp only [List.map_cons, List.cons.injEq] at h
      have hab : a = b :=
        digitChar_lt_inj a (h1 a (by simp)) b (h2 b (by simp)) h.1
      rw [hab, ih bs (fun d hd => h1 d (by simp [hd])) (fun d hd => h2 d (by simp [hd])) h.2]

lemma pyStrNat_data (n : ℕ) (h : n ≠ 0) :
    (pyStrNat n).data = ((Nat.digits 10 n).map Nat.digitChar).reverse := by
  unfold pyStrNat
  rw [if_neg h, decCharsAux_eq n n le_rfl]

lemma pyStrNat_ne_zero_str (b : ℕ) (hb : b ≠ 0) : pyStrNat b ≠ "0" := by
  intro h
  have hdata := congrArg String.data h
  rw [pyStrNat_data b hb] at hdata
  rcases hd : Nat.digits 10 b with _ | ⟨d, ds⟩
  · exact hb (Nat.digits_eq_nil_iff_eq_zero.mp hd)
  · rw [hd] at hdata
    have hlen := congrArg List.length hdata
    simp at hlen
    subst hlen
    simp at hdata
    have hdlt : d < 10 := Nat.digits_lt_base (by norm_num) (by rw [hd]; exact List.mem_singleton_self d)
    have hd0 : d = 0 := digitChar_lt_inj d hdlt 0 (by norm_num) hdata
    subst hd0
    have hof := Nat.ofDigits_digits 10 b
    rw [hd] at hof
    simp [Nat.ofDigits] at hof
    exact hb hof.symm

lemma pyStrNat_inj : Function.Injective pyStrNat := by
  intro a b h
  rcases Nat.eq_zero_or_pos a with ha | ha <;> rcases Nat.eq_zero_or_pos b with hb | hb
  · rw [ha, hb]
  · subst ha
    exact absurd h.symm (pyStrNat_ne_zero_str b hb.ne')
  · subst hb
    exact absurd h (pyStrNat_ne_zero_str a ha.ne')
  · have hdata := congrArg String.data h
    rw [pyStrNat_data a ha.ne', pyStrNat_data b hb.ne'] at hdata
    have hrev := List.reverse_injective hdata
    have hdd := mapDigitChar_inj _ _
      (fun d hd => Nat.digits_lt_base (by norm_num) hd)
      (fun d hd => Nat.digits_lt_base (by norm_num) hd) hrev
    exact Nat.digits.injective 10 hdd

lemma pyStrNat_isDigit (n : ℕ) : ∀ c ∈ (pyStrNat n).data, c.isDigit = true := by
  intro c hc
  by_cases hn : n = 0
  · subst hn
    have : c ∈ ['0'] := hc
    simp at this
    subst this
    decide
  · rw [pyStrNat_data n hn, List.mem_reverse] at hc
    rcases List.mem_map.mp hc with ⟨d, hd, rfl⟩
    exact digitChar_isDigit d (Nat.digits_lt_base (by norm_num) hd)

/-- Cancelling two all-digit prefixes before a colon separator. -/
lemma sepCancel : ∀ A B r1 r2 : List Char, (∀ c ∈ A, c.isDigit = true) →
    (∀ c ∈ B, c.isDigit = true) → A ++ ':' :: r1 = B ++ ':' :: r2 → A = B ∧ r1 = r2 := by
  intro A
  induction A with
  | nil =>
    intro B r1 r2 _ hB h
    cases B with
    | nil => simpa using h
    | cons b bs =>
      simp only [List.nil_append, List.cons_append, List.cons.injEq] at h
      have hbd : b.isDigit = true := hB b (by simp)
      rw [← h.1] at hbd
      exact absurd hbd (by decide)
  | cons a as ih =>
    intro B r1 r2 hA hB h
    cases B with
    | nil =>
      simp only [List.cons_append, List.nil_append, List.cons.injEq] at h
      have had : a.isDigit = true := hA a (by simp)
      rw [h.1] at had
      exact absurd had (by decide)
    | cons b bs =>
      simp only [List.cons_append, List.cons.injEq] at h
      obtain ⟨h1, h2⟩ := h
      obtain ⟨hAB, hr⟩ := ih bs r1 r2
        (fun c hc => hA c (by simp [hc])) (fun c hc => hB c (by simp [hc])) h2
      exact ⟨by rw [h1, hAB], hr⟩

/-- The issue format of `_validate_features` uniquely identifies its
(index, field) pair. -/
lemma fmtFeature_inj (i j : ℕ) (f g : String)
    (h : PRDValidator.fmtFeature i f = PRDValidator.fmtFeature j g) : i = j ∧ f = g := by
  have hd0 := congrArg String.data h
  have hshape : ∀ (k : ℕ) (x : String), (PRDValidator.fmtFeature k x).data =
      "Feature ".data ++ ((pyStrNat k).data ++ (':' :: (" missing field '".data ++
        (x.data ++ ['\''])))) := by
    intro k x
    show ("Feature ".data ++ (pyStrNat k).data) ++ ": missing field ".data ++
        "'".data ++ x.data ++ "'".data = _
    simp [List.append_assoc]
  rw [hshape, hshape] at hd0
  have hd1 := List.append_cancel_left hd0
  obtain ⟨hnum, hrest⟩ := sepCancel _ _ _ _ (pyStrNat_isDigit i) (pyStrNat_isDigit j) hd1
  have hij : i = j := pyStrNat_inj (stringDataInj hnum)
  have hd2 := List.append_cancel_left hrest
  have hd3 := List.append_cancel_right hd2
  exact ⟨hij, stringDataInj hd3⟩

/-! ## Claim theorems -/

/-- Claim C3. For every metrics mapping given to the performance guard, the
`warnings` list in the returned result is empty — all rule checks, including
the warning-severity ones, append to `violations`, so `warnings` is always
`[]`, both in `validate_performance` and in the `process` wrapper. -/
theorem c3_warnings_always_empty (m : PerformanceGuard.Metrics) :
    (PerformanceGuard.validate_performance m).warnings = [] ∧
    PerformanceGuard.procWarnings (PerformanceGuard.process m) = [] := by
  refine ⟨rfl, ?_⟩
  show PerformanceGuard.procWarnings
      (if (PerformanceGuard.validate_performance m).valid = true then
        PerformanceGuard.ProcResult.approved
      else
        PerformanceGuard.ProcResult.rejected (PerformanceGuard.validate_performance m).violations
          (PerformanceGuard.validate_performance m).warnings) = []
  by_cases h : (PerformanceGuard.validate_performance m).valid = true
  · rw [if_pos h]
    rfl
  · rw [if_neg h]
    rfl

/-- One over-budget entry whose computed percentage exceeds 110 yields a
single critical violation. -/
lemma check_single_critical (t : String) (b q : ℚ)
    (hb : List.lookup t PerformanceGuard.bundle_budgets = some b) (hqb : q > b)
    (hperc : PerformanceGuard.fmul (PerformanceGuard.fdiv q b) 100 > 110) :
    ∃ r, PerformanceGuard.check_bundle_sizes [(t, q)] = [r] ∧ r.severity = "critical" := by
  rw [check_single_eval t b q hb hqb, if_pos hperc]
  exact ⟨_, rfl, rfl⟩

/-- Claim C4, counterexample. 330 KB is exactly 110% of the javascript
budget 300, yet the emitted severity is `critical`, not `warning` as the
claim states: the double-precision product `(330/300)*100` rounds to
110 + 2⁻⁴⁶, which is strictly greater than 110. -/
theorem c4_counterexample :
    (330 : ℚ) = 300 * 110 / 100 ∧
    (PerformanceGuard.check_bundle_sizes [("javascript", 330)]).map
      PerformanceGuard.Violation.severity = ["critical"] ∧
    ("critical" : String) ≠ "warning" := by
  refine ⟨by norm_num, ?_, by decide⟩
  rw [bundleJs330_eval]
  rfl

/-- Claim C4, amended. Bundle-size severity boundary, per entry whose asset
type is in the budget table: a size exactly equal to 110% of its budget
yields a single violation of severity `critical` — the double-precision
evaluation of `(size/budget)*100` rounds to just above 110; a size strictly
above 110% of budget likewise yields severity `critical`; and a size at most
the budget yields no violation. -/
theorem c4_amended_boundary_critical (t : String) (b q : ℚ)
    (hb : List.lookup t PerformanceGuard.bundle_budgets = some b) :
    (q = b * 110 / 100 →
      ∃ r, PerformanceGuard.check_bundle_sizes [(t, q)] = [r] ∧ r.severity = "critical") ∧
    (q / b * 100 > 110 →
      ∃ r, PerformanceGuard.check_bundle_sizes [(t, q)] = [r] ∧ r.severity = "critical") ∧
    (q ≤ b → PerformanceGuard.check_bundle_sizes [(t, q)] = []) := by
  have hbpos : 0 < b := bundle_budget_pos hb
  have hb0 : b ≠ 0 := ne_of_gt hbpos
  refine ⟨?_, ?_, ?_⟩
  · intro hq
    have hratio : q / b = 11 / 10 := by rw [hq]; field_simp; ring
    have hqb : q > b := by rw [hq]; nlinarith
    have hperc : PerformanceGuard.fmul (PerformanceGuard.fdiv q b) 100 > 110 := by
      unfold PerformanceGuard.fmul PerformanceGuard.fdiv
      rw [hratio, PerformanceGuard.roundDouble_ratio, PerformanceGuard.roundDouble_d0_mul_100]
      norm_num
    exact check_single_critical t b q hb hqb hperc
  · intro hp
    have hratio : 11 / 10 < q / b := by linarith
    have hqb : q > b := by
      have h2 : (11:ℚ) / 10 * b < q := (lt_div_iff₀ hbpos).mp hratio
      nlinarith
    have hfd : (4953959590107546:ℚ)/4503599627370496 ≤ PerformanceGuard.fdiv q b := by
      unfold PerformanceGuard.fdiv
      rw [← PerformanceGuard.roundDouble_ratio]
      exact PerformanceGuard.roundDouble_mono_pos (by norm_num) (le_of_lt hratio)
    have hperc : PerformanceGuard.fmul (PerformanceGuard.fdiv q b) 100 > 110 := by
      unfold PerformanceGuard.fmul
      have hstep : (7740561859543041:ℚ)/70368744177664 ≤
          PerformanceGuard.roundDouble (PerformanceGuard.fdiv q b * 100) := by
        rw [← PerformanceGuard.roundDouble_d0_mul_100]
        exact PerformanceGuard.roundDouble_mono_pos (by norm_num)
          (mul_le_mul_of_nonneg_right hfd (by norm_num : (0:ℚ) ≤ 100))
      have hP : (110:ℚ) < 7740561859543041/70368744177664 := by norm_num
      linarith
    exact check_single_critical t b q hb hqb hperc
  · intro hle
    simp only [PerformanceGuard.check_bundle_sizes, List.flatMap_cons, List.flatMap_nil,
      List.append_nil, hb]
    rw [if_neg (not_lt.mpr hle)]

/-- Claim C5. On `{"bundle_sizes": {"javascript": 330}}` with javascript
budget 300, the guard produces exactly one violation, of severity
`critical`, with value 330, budget 300, and percentage 110.0: the
double-precision percentage `(330/300)*100` is the float just above 110
(printed 110.00000000000001), which is strictly greater than 110, and
`round(·, 1)` maps it back to exactly 110.0. -/
theorem c5_critical_at_exact_110 :
    PerformanceGuard.validate_performance ⟨none, none, some [("javascript", 330)], none⟩ =
      ⟨false, [⟨"critical", "Javascript bundle", 330, 300, some "KB", some 110⟩], []⟩ := by
  simp [PerformanceGuard.validate_performance, bundleJs330_eval]

/-- Claim C6. For every request with the three required fields present whose
`prd` key is null or absent, `orchestrate` fails with the PRD-missing error,
and the returned result carries no phase entries at all — in particular no
`plan` or `implement` entry. -/
theorem c6_prd_missing_short_circuit (request : List (String × JVal))
    (h1 : hasKey request "type" = true) (h2 : hasKey request "action" = true)
    (h3 : hasKey request "description" = true)
    (h4 : lookupOpt request "prd" = none ∨ lookupOpt request "prd" = some JVal.null) :
    Orchestrator.orchestrate request = .failure ⟨false, some "PRD not provided"⟩ ∧
    Orchestrator.resultPhases (Orchestrator.orchestrate request) = [] := by
  have hrv : Orchestrator.validate_request request = ⟨true, none⟩ := by
    simp [Orchestrator.validate_request, Orchestrator.required, List.find?, h1, h2, h3]
  have hpv : Orchestrator.validate_prd (lookupOpt request "prd") =
      ⟨false, some "PRD not provided"⟩ := by
    rcases h4 with h | h <;> rw [h] <;> rfl
  have key : Orchestrator.orchestrate request = .failure ⟨false, some "PRD not provided"⟩ := by
    simp [Orchestrator.orchestrate, hrv, hpv]
  exact ⟨key, by rw [key]; rfl⟩

/-- Witness for C6 at a concrete request with no `prd` key. -/
theorem c6_witness :
    Orchestrator.orchestrate
      [("type", JVal.str "feature"), ("action", JVal.str "add"), ("description", JVal.str "x")] =
      .failure ⟨false, some "PRD not provided"⟩ :=
  (c6_prd_missing_short_circuit
    [("type", JVal.str "feature"), ("action", JVal.str "add"), ("description", JVal.str "x")]
    rfl rfl rfl (Or.inl rfl)).1

/-- Witness for C4 (amended) at concrete sizes: javascript 330 (exactly 110%
of 300, `critical` via the float boundary), css 90 (120% of 75, `critical`),
fonts 100 (at budget, no violation). -/
theorem c4_amended_witness :
    (∃ r, PerformanceGuard.check_bundle_sizes [("javascript", 330)] = [r] ∧
      r.severity = "critical") ∧
    (∃ r, PerformanceGuard.check_bundle_sizes [("css", 90)] = [r] ∧
      r.severity = "critical") ∧
    PerformanceGuard.check_bundle_sizes [("fonts", 100)] = [] :=
  ⟨(c4_amended_boundary_critical "javascript" 300 330 rfl).1 (by norm_num),
   (c4_amended_boundary_critical "css" 75 90 rfl).2.1 (by norm_num),
   (c4_amended_boundary_critical "fonts" 100 100 rfl).2.2 (by norm_num)⟩

/-- The success payload of `orchestrate` is the same constant for every
request passing both validations. -/
lemma orchestrate_of_valid (request : List (String × JVal))
    (h1 : (Orchestrator.validate_request request).valid = true)
    (h2 : (Orchestrator.validate_prd (lookupOpt request "prd")).valid = true) :
    Orchestrator.orchestrate request =
      .success Orchestrator.stdPhases Orchestrator.stdAssignments := by
  have hrv : Orchestrator.validate_request request = ⟨true, none⟩ := by
    unfold Orchestrator.validate_request at h1 ⊢
    rcases hf : List.find? (fun f => !(hasKey request f)) Orchestrator.required with _ | f
    · rfl
    · simp [hf] at h1
  have hpv : Orchestrator.validate_prd (lookupOpt request "prd") = ⟨true, none⟩ := by
    unfold Orchestrator.validate_prd at h2 ⊢
    rcases hp : lookupOpt request "prd" with _ | v
    · simp [hp] at h2
    · by_cases hf : pyFalsy v = true
      · simp [hp, hf] at h2
      · simp [hp, hf]
  simp [Orchestrator.orchestrate, hrv, hpv, Orchestrator.stdPhases, Orchestrator.stdPlan,
    Orchestrator.stdAssignments, Orchestrator.create_execution_plan]

/-- Claim C9. Any two `(request, prd)` inputs that both pass the orchestrator's
request and PRD validations receive identical results: plan skeleton,
assignments, test plan, checklist and deployment strategy are constants of a
planning template, not derived from the input (`request_id`/`timestamp`, the
only per-run fields, are outside the model). -/
theorem c9_plan_template_input_independent (r1 r2 : List (String × JVal))
    (h1 : (Orchestrator.validate_request r1).valid = true)
    (h2 : (Orchestrator.validate_prd (lookupOpt r1 "prd")).valid = true)
    (h3 : (Orchestrator.validate_request r2).valid = true)
    (h4 : (Orchestrator.validate_prd (lookupOpt r2 "prd")).valid = true) :
    Orchestrator.orchestrate r1 = Orchestrator.orchestrate r2 := by
  rw [orchestrate_of_valid r1 h1 h2, orchestrate_of_valid r2 h3 h4]

/-- Witness for C9: two requests with different types, contents and PRDs get
the same orchestration result. -/
theorem c9_witness :
    Orchestrator.orchestrate
      [("type", JVal.str "feature"), ("action", JVal.str "add"),
       ("description", JVal.str "x"), ("prd", JVal.obj [("a", JVal.num 1)])] =
    Orchestrator.orchestrate
      [("type", JVal.str "bugfix"), ("action", JVal.str "fix"),
       ("description", JVal.str "y"), ("prd", JVal.obj [("b", JVal.num 2)]),
       ("extra", JVal.null)] :=
  c9_plan_template_input_independent _ _ rfl rfl rfl rfl

/-- Claim C10. A PRD containing all 8 title-case required sections and none of
the lowercase keys `features`, `success_metrics`, `constraints` is accepted
with an empty issue list: the sub-checks only run when those lowercase keys
are present, and they are not in the required-section list. -/
theorem c10_subchecks_bypassed (prd : List (String × JVal))
    (hs : ∀ s ∈ PRDValidator.required_sections, hasKey prd s = true)
    (hf : hasKey prd "features" = false)
    (hm : hasKey prd "success_metrics" = false)
    (hc : hasKey prd "constraints" = false) :
    PRDValidator.validate_prd prd = .ok ⟨true, []⟩ := by
  have hsi : PRDValidator.sectionIssues prd = [] := by
    unfold PRDValidator.sectionIssues
    have h : PRDValidator.required_sections.filter (fun s => !(hasKey prd s)) = [] := by
      rw [List.filter_eq_nil_iff]
      intro a ha
      simp [hs a ha]
    rw [h]
    rfl
  simp [PRDValidator.validate_prd, hf, hm, hc, hsi]

/-- Witness for C10 at a concrete document with exactly the 8 sections. -/
theorem c10_witness :
    PRDValidator.validate_prd
      [("Executive Summary", JVal.str "a"), ("Problem Statement", JVal.str "b"),
       ("Target Users/Personas", JVal.str "c"), ("Core Features", JVal.str "d"),
       ("Success Metrics", JVal.str "e"), ("Constraints", JVal.str "f"),
       ("Timeline", JVal.str "g"), ("Non-Goals", JVal.str "h")] = .ok ⟨true, []⟩ :=
  c10_subchecks_bypassed _ (by decide) rfl rfl rfl

/-- Claim C1, counterexample. A request with all three fields present but the
invalid type `"deploy"` and a non-empty PRD is ACCEPTED by
`Orchestrator.orchestrate`: the result is valid and a full plan (through the
`deploy` phase) is built — the orchestrator never checks the request type. -/
theorem c1_counterexample :
    Orchestrator.resultValid (Orchestrator.orchestrate
      [("type", JVal.str "deploy"), ("action", JVal.str "add"), ("description", JVal.str "x"),
       ("prd", JVal.obj [("Timeline", JVal.str "Q1")])]) = true ∧
    (Orchestrator.resultPhases (Orchestrator.orchestrate
      [("type", JVal.str "deploy"), ("action", JVal.str "add"), ("description", JVal.str "x"),
       ("prd", JVal.obj [("Timeline", JVal.str "Q1")])])).map Orchestrator.PhaseRec.name =
      ["validate_request", "validate_prd", "plan", "implement", "test", "review", "deploy"] ∧
    UserPromptSubmit.isValidType (lookupD
      [("type", JVal.str "deploy"), ("action", JVal.str "add"), ("description", JVal.str "x"),
       ("prd", JVal.obj [("Timeline", JVal.str "Q1")])] "type") = false :=
  ⟨rfl, rfl, rfl⟩

/-- Claim C1, amended. The type-membership check lives in the
`UserPromptSubmitValidator` hook, not in the orchestrator: a request with the
three fields present and a type outside
`{feature, bugfix, refactor, documentation}` is rejected by the hook's
`validate_request` with the invalid-type error. -/
theorem c1_amended_type_checked_in_hook (request : List (String × JVal))
    (h1 : hasKey request "type" = true) (h2 : hasKey request "action" = true)
    (h3 : hasKey request "description" = true)
    (h4 : UserPromptSubmit.isValidType (lookupD request "type") = false) :
    UserPromptSubmit.validate_request request =
      ⟨false, some "Invalid request type. Must be one of: feature, bugfix, refactor, documentation"⟩ := by
  have hf : List.find? (fun f => !(hasKey request f)) UserPromptSubmit.required_fields = none := by
    simp [UserPromptSubmit.required_fields, List.find?, h1, h2, h3]
  simp [UserPromptSubmit.validate_request, hf, h4]

/-- Witness for C1 (amended) at the invalid type `"deploy"`. -/
theorem c1_witness :
    UserPromptSubmit.validate_request
      [("type", JVal.str "deploy"), ("action", JVal.str "a"), ("description", JVal.str "d")] =
      ⟨false, some "Invalid request type. Must be one of: feature, bugfix, refactor, documentation"⟩ :=
  c1_amended_type_checked_in_hook _ rfl rfl rfl rfl

/-- Claim C2, counterexample. On the request `{"type": "feature"}`, missing
both `action` and `description`, both validators return an error naming only
the first missing field `action`; the other missing field `description` is
not mentioned anywhere in the error text (checked by substring search). -/
theorem c2_counterexample :
    UserPromptSubmit.validate_request [("type", JVal.str "feature")] =
      ⟨false, some "Missing required field: action"⟩ ∧
    Orchestrator.validate_request [("type", JVal.str "feature")] =
      ⟨false, some "Missing field: action"⟩ ∧
    charsSub "description".toList "Missing required field: action".toList = false ∧
    charsSub "description".toList "Missing field: action".toList = false :=
  ⟨rfl, rfl, by decide, by decide⟩

/-- Claim C2, amended. Both request-structure validators stop at the FIRST
missing field in the order `type`, `action`, `description` and report only
it (only `PRDValidator.validate_prd` collects every issue). -/
theorem c2_amended_first_missing_field_only (request : List (String × JVal)) (f : String)
    (h : List.find? (fun g => !(hasKey request g)) UserPromptSubmit.required_fields = some f) :
    UserPromptSubmit.validate_request request =
      ⟨false, some ("Missing required field: " ++ f)⟩ ∧
    Orchestrator.validate_request request = ⟨false, some ("Missing field: " ++ f)⟩ := by
  constructor
  · unfold UserPromptSubmit.validate_request
    rw [h]
  · unfold Orchestrator.validate_request
    have h2 : List.find? (fun g => !(hasKey request g)) Orchestrator.required = some f := h
    rw [h2]

/-- Witness for C2 (amended) at a request missing `action` and `description`. -/
theorem c2_witness :
    UserPromptSubmit.validate_request [("type", JVal.str "feature")] =
      ⟨false, some ("Missing required field: " ++ "action")⟩ ∧
    Orchestrator.validate_request [("type", JVal.str "feature")] =
      ⟨false, some ("Missing field: " ++ "action")⟩ :=
  c2_amended_first_missing_field_only [("type", JVal.str "feature")] "action" rfl


/-! ## Membership shape lemmas for the PRD validator's sub-checks -/

lemma mem_catLoop (label : String) (doc : JVal) :
    ∀ cats acc out : List String, PRDValidator.catLoop label doc cats acc = .ok out →
      ∀ x ∈ out, x ∈ acc ∨ ∃ c ∈ cats, x = label ++ c := by
  intro cats
  induction cats with
  | nil =>
    intro acc out h x hx
    replace h : (Except.ok acc : Except Unit (List String)) = .ok out := h
    injection h with h2
    subst h2
    exact Or.inl hx
  | cons c rest ih =>
    intro acc out h x hx
    unfold PRDValidator.catLoop at h
    cases hb : pyContains c doc with
    | error e =>
      rw [hb] at h
      simp at h
    | ok b =>
      rw [hb] at h
      simp only [ok_bind] at h
      rcases ih _ _ h x hx with hacc | ⟨c2, hc2, hx2⟩
      · by_cases hbb : b = true
        · rw [if_pos hbb] at hacc
          exact Or.inl hacc
        · rw [if_neg hbb] at hacc
          rcases List.mem_append.mp hacc with h1 | h1
          · exact Or.inl h1
          · simp at h1
            exact Or.inr ⟨c, by simp, h1⟩
      · exact Or.inr ⟨c2, by simp [hc2], hx2⟩

lemma mem_featureFieldsLoop (idx : ℕ) (feature : JVal) :
    ∀ fields acc out : List String,
      PRDValidator.featureFieldsLoop idx feature fields acc = .ok out →
      ∀ x ∈ out, x ∈ acc ∨ ∃ f ∈ fields, x = PRDValidator.fmtFeature idx f := by
  intro fields
  induction fields with
  | nil =>
    intro acc out h x hx
    replace h : (Except.ok acc : Except Unit (List String)) = .ok out := h
    injection h with h2
    subst h2
    exact Or.inl hx
  | cons f rest ih =>
    intro acc out h x hx
    unfold PRDValidator.featureFieldsLoop at h
    cases hb : pyContains f feature with
    | error e =>
      rw [hb] at h
      simp at h
    | ok b =>
      rw [hb] at h
      simp only [ok_bind] at h
      rcases ih _ _ h x hx with hacc | ⟨f2, hf2, hx2⟩
      · by_cases hbb : b = true
        · rw [if_pos hbb] at hacc
          exact Or.inl hacc
        · rw [if_neg hbb] at hacc
          rcases List.mem_append.mp hacc with h1 | h1
          · exact Or.inl h1
          · simp at h1
            exact Or.inr ⟨f, by simp, h1⟩
      · exact Or.inr ⟨f2, by simp [hf2], hx2⟩

lemma mem_featuresLoop :
    ∀ (entries : List JVal) (idx : ℕ) (acc out : List String),
      PRDValidator.featuresLoop entries idx acc = .ok out →
      ∀ x ∈ out, x ∈ acc ∨ ∃ i f, f ∈ PRDValidator.required_feature_fields ∧
        x = PRDValidator.fmtFeature i f := by
  intro entries
  induction entries with
  | nil =>
    intro idx acc out h x hx
    replace h : (Except.ok acc : Except Unit (List String)) = .ok out := h
    injection h with h2
    subst h2
    exact Or.inl hx
  | cons e rest ih =>
    intro idx acc out h x hx
    unfold PRDValidator.featuresLoop at h
    cases hb : PRDValidator.featureFieldsLoop idx e PRDValidator.required_feature_fields acc with
    | error er =>
      rw [hb] at h
      simp at h
    | ok acc2 =>
      rw [hb] at h
      simp only [ok_bind] at h
      rcases ih _ _ _ h x hx with hacc2 | hex
      · rcases mem_featureFieldsLoop idx e _ _ _ hb x hacc2 with h1 | ⟨f, hf, h1⟩
        · exact Or.inl h1
        · exact Or.inr ⟨idx, f, hf, h1⟩
      · exact Or.inr hex

lemma mem_validate_features (v : JVal) (out : List String)
    (h : PRDValidator.validate_features v = .ok out) :
    ∀ x ∈ out, x = "No features defined" ∨
      ∃ i f, f ∈ PRDValidator.required_feature_fields ∧
        x = PRDValidator.fmtFeature i f := by
  intro x hx
  unfold PRDValidator.validate_features at h
  by_cases hfal : pyFalsy v = true
  · rw [if_pos hfal] at h
    replace h : (Except.ok ["No features defined"] : Except Unit (List String)) = .ok out := h
    injection h with h2
    subst h2
    simp at hx
    exact Or.inl hx
  · rw [if_neg hfal] at h
    cases hlen : pyLen v with
    | error e =>
      rw [hlen] at h
      simp at h
    | ok n =>
      rw [hlen] at h
      simp only [ok_bind] at h
      by_cases hn : (n == 0) = true
      · rw [if_pos hn] at h
        replace h : (Except.ok ["No features defined"] : Except Unit (List String)) = .ok out := h
        injection h with h2
        subst h2
        simp at hx
        exact Or.inl hx
      · rw [if_neg hn] at h
        cases hit : pyIter v with
        | error e =>
          rw [hit] at h
          simp at h
        | ok entries =>
          rw [hit] at h
          simp only [ok_bind] at h
          rcases mem_featuresLoop entries 0 [] out h x hx with h1 | h1
          · simp at h1
          · exact Or.inr h1

/-- One guarded stage of `validate_prd`: a successful stage extends the base
issue list by a block whose members all satisfy the sub-check's shape. -/
lemma stage_shape {P : String → Prop} (b : Bool) (sub : Except Unit (List String))
    (base out : List String)
    (h : (if b = true then Except.map (fun xi => base ++ xi) sub else .ok base) = .ok out)
    (hsub : ∀ l, sub = .ok l → ∀ x ∈ l, P x) :
    ∃ add, out = base ++ add ∧ ∀ x ∈ add, P x := by
  by_cases hb : b = true
  · rw [if_pos hb] at h
    cases hs : sub with
    | error e =>
      rw [hs] at h
      simp at h
    | ok l =>
      rw [hs] at h
      simp only [exmap_ok, Except.ok.injEq] at h
      exact ⟨l, h.symm, hsub l hs⟩
  · rw [if_neg hb] at h
    simp only [Except.ok.injEq] at h
    exact ⟨[], by simp [h], by simp⟩

/-- Shape of the issue list of a successful `validate_prd` run: the section
presence issues come first, followed only by sub-check issues of
recognizable shapes. -/
lemma validate_prd_ok_issues (prd : List (String × JVal)) (r : VResult)
    (h : PRDValidator.validate_prd prd = .ok r) :
    ∃ rest, r.issues = PRDValidator.sectionIssues prd ++ rest ∧
      ∀ x ∈ rest, x = "No features defined" ∨
        (∃ i f, f ∈ PRDValidator.required_feature_fields ∧
          x = PRDValidator.fmtFeature i f) ∨
        (∃ c ∈ PRDValidator.required_metric_categories,
          x = "Missing metric category: " ++ c) ∨
        (∃ c ∈ PRDValidator.required_constraint_categories,
          x = "Missing constraint category: " ++ c) := by
  simp only [PRDValidator.validate_prd] at h
  cases h1 : (if hasKey prd "features" = true then
      Except.map (fun fi => PRDValidator.sectionIssues prd ++ fi)
        (PRDValidator.validate_features (lookupD prd "features"))
    else .ok (PRDValidator.sectionIssues prd)) with
  | error e =>
    rw [h1] at h
    simp at h
  | ok issues1 =>
    rw [h1] at h
    simp only [exbind_ok] at h
    obtain ⟨add1, he1, hp1⟩ := stage_shape _ _ _ _ h1
      (fun l hl x hx => mem_validate_features _ l hl x hx)
    cases h2 : (if hasKey prd "success_metrics" = true then
        Except.map (fun mi => issues1 ++ mi)
          (PRDValidator.validate_metrics (lookupD prd "success_metrics"))
      else .ok issues1) with
    | error e =>
      rw [h2] at h
      simp at h
    | ok issues2 =>
      rw [h2] at h
      simp only [exbind_ok] at h
      obtain ⟨add2, he2, hp2⟩ := stage_shape
        (P := fun x => ∃ c ∈ PRDValidator.required_metric_categories,
          x = "Missing metric category: " ++ c) _ _ _ _ h2
        (fun l hl x hx => by
          rcases mem_catLoop _ _ _ _ _ hl x hx with h0 | hex
          · simp at h0
          · exact hex)
      cases h3 : (if hasKey prd "constraints" = true then
          Except.map (fun ci => issues2 ++ ci)
            (PRDValidator.validate_constraints (lookupD prd "constraints"))
        else .ok issues2) with
      | error e =>
        rw [h3] at h
        simp at h
      | ok issues3 =>
        rw [h3] at h
        simp only [exbind_ok, Except.ok.injEq] at h
        obtain ⟨add3, he3, hp3⟩ := stage_shape
          (P := fun x => ∃ c ∈ PRDValidator.required_constraint_categories,
            x = "Missing constraint category: " ++ c) _ _ _ _ h3
          (fun l hl x hx => by
            rcases mem_catLoop _ _ _ _ _ hl x hx with h0 | hex
            · simp at h0
            · exact hex)
        refine ⟨add1 ++ add2 ++ add3, ?_, ?_⟩
        · rw [← h, he3, he2, he1]
          simp [List.append_assoc]
        · intro x hx
          simp only [List.mem_append] at hx
          rcases hx with (hx | hx) | hx
          · rcases hp1 x hx with h0 | h0
            · exact Or.inl h0
            · exact Or.inr (Or.inl h0)
          · exact Or.inr (Or.inr (Or.inl (hp2 x hx)))
          · exact Or.inr (Or.inr (Or.inr (hp3 x hx)))

/-- The section-issue formatter is injective. -/
lemma msInj : Function.Injective (fun s => "Missing section: " ++ s) := by
  intro a b h
  have h2 : "Missing section: ".data ++ a.data = "Missing section: ".data ++ b.data :=
    congrArg String.data h
  exact stringDataInj (List.append_cancel_left h2)

/-- Claim C7. In every successful `validate_prd` run, the issue list starts
with the section-presence issues in required-list order; no other issue is a
`"Missing section: ..."` entry; and for each required section the issue list
contains the entry `"Missing section: {s}"` exactly once when `s` is absent
and never when `s` is present. -/
theorem c7_section_presence (prd : List (String × JVal)) (r : VResult)
    (h : PRDValidator.validate_prd prd = .ok r) :
    ∃ rest, r.issues = PRDValidator.sectionIssues prd ++ rest ∧
      (∀ s : String, ("Missing section: " ++ s) ∉ rest) ∧
      ∀ s ∈ PRDValidator.required_sections,
        r.issues.count ("Missing section: " ++ s) =
          if hasKey prd s then 0 else 1 := by
  obtain ⟨rest, hr, hshapes⟩ := validate_prd_ok_issues prd r h
  have hnotin : ∀ s : String, ("Missing section: " ++ s) ∉ rest := by
    intro s hmem
    rcases hshapes _ hmem with h1 | ⟨i, f, hf, h1⟩ | ⟨c, hc, h1⟩ | ⟨c, hc, h1⟩
    · exact strNeOfNth ("Missing section: " ++ s) "No features defined"
        0 'M' 'N' rfl rfl (by decide) h1
    · exact strNeOfNth ("Missing section: " ++ s) (PRDValidator.fmtFeature i f)
        0 'M' 'F' rfl rfl (by decide) h1
    · exact strNeOfNth ("Missing section: " ++ s) ("Missing metric category: " ++ c)
        8 's' 'm' rfl rfl (by decide) h1
    · exact strNeOfNth ("Missing section: " ++ s) ("Missing constraint category: " ++ c)
        8 's' 'c' rfl rfl (by decide) h1
  refine ⟨rest, hr, hnotin, ?_⟩
  intro s hs
  rw [hr, List.count_append, List.count_eq_zero.mpr (hnotin s), Nat.add_zero]
  unfold PRDValidator.sectionIssues
  rw [List.count_map_of_injective _ _ msInj]
  by_cases hk : hasKey prd s
  · rw [if_pos hk]
    refine List.count_eq_zero.mpr ?_
    intro hmem
    rw [List.mem_filter] at hmem
    simp [hk] at hmem
  · rw [if_neg hk]
    have hps : (!(hasKey prd s)) = true := by simp [hk]
    exact List.count_eq_one_of_mem
      (List.Nodup.filter _ (by decide : PRDValidator.required_sections.Nodup))
      (List.mem_filter.mpr ⟨hs, hps⟩)

/-- Witness for C7 at a concrete document missing seven sections, with an
(empty) feature list present. -/
theorem c7_witness :
    ∃ rest,
      (⟨false, ["Missing section: Problem Statement",
        "Missing section: Target Users/Personas", "Missing section: Core Features",
        "Missing section: Success Metrics", "Missing section: Constraints",
        "Missing section: Timeline", "Missing section: Non-Goals",
        "No features defined"]⟩ : VResult).issues =
        PRDValidator.sectionIssues
          [("Executive Summary", JVal.str "x"), ("features", JVal.arr [])] ++ rest ∧
      (∀ s : String, ("Missing section: " ++ s) ∉ rest) ∧
      ∀ s ∈ PRDValidator.required_sections,
        (⟨false, ["Missing section: Problem Statement",
          "Missing section: Target Users/Personas", "Missing section: Core Features",
          "Missing section: Success Metrics", "Missing section: Constraints",
          "Missing section: Timeline", "Missing section: Non-Goals",
          "No features defined"]⟩ : VResult).issues.count ("Missing section: " ++ s) =
          if hasKey [("Executive Summary", JVal.str "x"), ("features", JVal.arr [])] s
          then 0 else 1 :=
  c7_section_presence
    [("Executive Summary", JVal.str "x"), ("features", JVal.arr [])] _ rfl

/-! ## Evaluation lemmas for `_validate_features` on well-formed input -/

lemma featureFieldsLoop_obj (idx : ℕ) (kvs : List (String × JVal)) :
    ∀ fields acc : List String,
      PRDValidator.featureFieldsLoop idx (.obj kvs) fields acc =
        .ok (acc ++ (fields.filter (fun f => !(hasKey kvs f))).map
          (PRDValidator.fmtFeature idx)) := by
  intro fields
  induction fields with
  | nil =>
    intro acc
    simp [PRDValidator.featureFieldsLoop]
  | cons f rest ih =>
    intro acc
    unfold PRDValidator.featureFieldsLoop
    rw [show pyContains f (JVal.obj kvs) = .ok (hasKey kvs f) from rfl]
    simp only [ok_bind]
    by_cases hb : hasKey kvs f = true
    · rw [if_pos hb, ih]
      simp [List.filter_cons, hb]
    · have hb' : hasKey kvs f = false := by simpa using hb
      rw [if_neg (by simp [hb']), ih]
      simp [List.filter_cons, hb', List.append_assoc]

lemma featuresLoop_obj :
    ∀ (entries : List JVal) (idx : ℕ) (acc : List String),
      (∀ e ∈ entries, ∃ kvs, e = JVal.obj kvs) →
      PRDValidator.featuresLoop entries idx acc =
        .ok (acc ++ (List.enumFrom idx entries).flatMap (fun p =>
          (PRDValidator.required_feature_fields.filter
            (fun f => !(objHas p.2 f))).map (PRDValidator.fmtFeature p.1))) := by
  intro entries
  induction entries with
  | nil =>
    intro idx acc _
    simp [PRDValidator.featuresLoop, List.enumFrom]
  | cons e rest ih =>
    intro idx acc hobj
    obtain ⟨kvs, rfl⟩ := hobj e (by simp)
    unfold PRDValidator.featuresLoop
    rw [featureFieldsLoop_obj]
    simp only [ok_bind]
    rw [ih _ _ (fun x hx => hobj x (by simp [hx]))]
    simp [List.enumFrom, List.append_assoc, objHas]

lemma validate_features_obj (entries : List JVal) (hne : entries ≠ [])
    (hobj : ∀ e ∈ entries, ∃ kvs, e = JVal.obj kvs) :
    PRDValidator.validate_features (.arr entries) =
      .ok (entries.enum.flatMap (fun p =>
        (PRDValidator.required_feature_fields.filter
          (fun f => !(objHas p.2 f))).map (PRDValidator.fmtFeature p.1))) := by
  unfold PRDValidator.validate_features
  have hfal : pyFalsy (.arr entries) = false := by
    simp [pyFalsy, hne]
  rw [hfal]
  rw [show pyLen (JVal.arr entries) = .ok entries.length from rfl]
  simp only [Bool.false_eq_true, if_false, ok_bind]
  have hlen : (entries.length == 0) = false := by
    simp [List.length_eq_zero, hne]
  rw [hlen]
  simp only [Bool.false_eq_true, if_false]
  rw [show pyIter (JVal.arr entries) = .ok entries from rfl]
  simp only [ok_bind]
  rw [featuresLoop_obj entries 0 [] hobj]
  rfl

lemma enumFrom_fst_le {α : Type} :
    ∀ (l : List α) (k : ℕ) (p : ℕ × α), p ∈ List.enumFrom k l → k ≤ p.1 := by
  intro l
  induction l with
  | nil =>
    intro k p hp
    simp [List.enumFrom] at hp
  | cons e rest ih =>
    intro k p hp
    rw [show List.enumFrom k (e :: rest) = (k, e) :: List.enumFrom (k + 1) rest from rfl] at hp
    rcases List.mem_cons.mp hp with h | h
    · subst h
      exact le_refl k
    · exact le_of_lt (lt_of_lt_of_le (Nat.lt_succ_self k) (ih (k + 1) p h))

lemma flatIssues_nodup :
    ∀ (entries : List JVal) (k : ℕ),
      ((List.enumFrom k entries).flatMap (fun p =>
        (PRDValidator.required_feature_fields.filter
          (fun f => !(objHas p.2 f))).map (PRDValidator.fmtFeature p.1))).Nodup := by
  intro entries
  induction entries with
  | nil =>
    intro k
    simp [List.enumFrom]
  | cons e rest ih =>
    intro k
    rw [show List.enumFrom k (e :: rest) = (k, e) :: List.enumFrom (k + 1) rest from rfl,
      List.flatMap_cons]
    apply List.Nodup.append
    · exact List.Nodup.map
        (fun f g hfg => (fmtFeature_inj k k f g hfg).2)
        (List.Nodup.filter _ (by decide : PRDValidator.required_feature_fields.Nodup))
    · exact ih (k + 1)
    · intro x hx1 hx2
      rcases List.mem_map.mp hx1 with ⟨f, hf, rfl⟩
      rcases List.mem_flatMap.mp hx2 with ⟨p, hp, hxp⟩
      rcases List.mem_map.mp hxp with ⟨g, hg, heq⟩
      have hpk : p.1 = k := (fmtFeature_inj p.1 k g f heq).1
      have hle : k + 1 ≤ p.1 := enumFrom_fst_le rest (k + 1) p hp
      omega

lemma flatIssues_length (M : ℕ) :
    ∀ (entries : List JVal) (k : ℕ),
      (∀ e ∈ entries, (PRDValidator.required_feature_fields.filter
        (fun f => !(objHas e f))).length = M) →
      ((List.enumFrom k entries).flatMap (fun p =>
        (PRDValidator.required_feature_fields.filter
          (fun f => !(objHas p.2 f))).map (PRDValidator.fmtFeature p.1))).length =
        entries.length * M := by
  intro entries
  induction entries with
  | nil =>
    intro k _
    simp [List.enumFrom]
  | cons e rest ih =>
    intro k hM
    rw [show List.enumFrom k (e :: rest) = (k, e) :: List.enumFrom (k + 1) rest from rfl,
      List.flatMap_cons, List.length_append, List.length_map]
    rw [hM e (by simp), ih (k + 1) (fun x hx => hM x (by simp [hx]))]
    simp [List.length_cons]
    ring

/-- Claim C8. Feature-list validation: a falsy (in particular empty) feature
value yields exactly the single issue `"No features defined"` and no
per-field issues; and on N mapping entries each missing M of the 4 required
fields it yields exactly N×M issues — one per (zero-based index, field) pair,
with no duplicates, the format string identifying the pair uniquely. -/
theorem c8_feature_validation :
    (∀ v : JVal, pyFalsy v = true →
      PRDValidator.validate_features v = .ok ["No features defined"]) ∧
    (∀ (entries : List JVal) (M : ℕ), entries ≠ [] →
      (∀ e ∈ entries, ∃ kvs, e = JVal.obj kvs) →
      (∀ e ∈ entries, (PRDValidator.required_feature_fields.filter
        (fun f => !(objHas e f))).length = M) →
      ∃ issues, PRDValidator.validate_features (.arr entries) = .ok issues ∧
        issues = entries.enum.flatMap (fun p =>
          (PRDValidator.required_feature_fields.filter
            (fun f => !(objHas p.2 f))).map (PRDValidator.fmtFeature p.1)) ∧
        issues.length = entries.length * M ∧ issues.Nodup) := by
  constructor
  · intro v hv
    unfold PRDValidator.validate_features
    rw [if_pos hv]
  · intro entries M hne hobj hM
    refine ⟨_, validate_features_obj entries hne hobj, rfl, ?_, ?_⟩
    · exact flatIssues_length M entries 0 hM
    · exact flatIssues_nodup entries 0

/-- Witness for C8: the empty list case, and two feature entries each
missing two of the four required fields (N = 2, M = 2). -/
theorem c8_witness :
    PRDValidator.validate_features (JVal.arr []) = .ok ["No features defined"] ∧
    (∃ issues, PRDValidator.validate_features (.arr
        [JVal.obj [("name", JVal.str "A"), ("priority", JVal.str "P0")],
         JVal.obj [("name", JVal.str "B"), ("description", JVal.str "D")]]) = .ok issues ∧
      issues = ([JVal.obj [("name", JVal.str "A"), ("priority", JVal.str "P0")],
         JVal.obj [("name", JVal.str "B"), ("description", JVal.str "D")]] : List JVal).enum.flatMap
          (fun p => (PRDValidator.required_feature_fields.filter
            (fun f => !(objHas p.2 f))).map (PRDValidator.fmtFeature p.1)) ∧
      issues.length =
        ([JVal.obj [("name", JVal.str "A"), ("priority", JVal.str "P0")],
          JVal.obj [("name", JVal.str "B"), ("description", JVal.str "D")]] : List JVal).length * 2 ∧
      issues.Nodup) := by
  constructor
  · exact c8_feature_validation.1 (JVal.arr []) rfl
  · refine c8_feature_validation.2 _ 2 (by simp) ?_ ?_
    · intro e he
      simp only [List.mem_cons, List.not_mem_nil, or_false] at he
      rcases he with rfl | rfl
      · exact ⟨_, rfl⟩
      · exact ⟨_, rfl⟩
    · intro e he
      simp only [List.mem_cons, List.not_mem_nil, or_false] at he
      rcases he with rfl | rfl
      · rfl
      · rfl
